import Mathlib

/-!
Shallow embedding of `src/script.js` (L'Oréal routine builder) and proofs
about its filtering / selection / routine-building pipeline.

Conventions of the embedding:
* JavaScript strings are Lean `String`s; `String(v)` coercion of an id value
  (which may be a number) is `jsString`.
* `trim()` / `toLowerCase()` are modelled by `jsTrim` / `jsLower` (the inputs
  appearing in this program are ASCII, where these agree with JS).
* The `Set` of selected ids is modelled as an insertion-ordered duplicate-free
  `List String` (JS `Set` iterates in insertion order); `Set.add` is
  `addUnique`, `Set.delete` drops the element.
* Plain objects used as dictionaries (the routine builder's `buckets`) are
  insertion-ordered association lists; `Object.keys` is the key list in
  insertion order (the category strings of this program are not array-index
  keys, for which JS would reorder).
-/

namespace Script

/-- A JavaScript primitive id value: catalog `id` may be a string or a number. -/
inductive JsPrim where
  | str (s : String)
  | num (n : Int)
deriving DecidableEq, Repr

/-- JS `String(v)` on an id value. -/
def jsString : JsPrim → String
  | .str s => s
  | .num n => toString n

/-- JS strict equality `v === s` between an id value and a string:
true only when `v` is itself a string equal to `s` (no coercion). -/
def jsStrictEqStr : JsPrim → String → Bool
  | .str t, s => t == s
  | .num _, _ => false

/-- Whitespace characters removed by `String.prototype.trim` (the ones that
can occur in this program's data). -/
def isJsSpace (c : Char) : Bool :=
  c == ' ' || c == '\t' || c == '\n' || c == '\r'

/-- JS `trim()`: drop leading and trailing whitespace. -/
def jsTrim (s : String) : String :=
  String.mk (((s.data.dropWhile isJsSpace).reverse.dropWhile isJsSpace).reverse)

/-- JS `toLowerCase()` (ASCII range, which is all this program's data uses). -/
def jsLower (s : String) : String :=
  String.mk (s.data.map Char.toLower)

/-- `s.trim().toLowerCase()`, the normalization applied to category strings
and search terms throughout the source. -/
def jsNorm (s : String) : String := jsLower (jsTrim s)

/-- Does `needle` occur at the start of `hay`? -/
def listStarts : List Char → List Char → Bool
  | [], _ => true
  | _ :: _, [] => false
  | a :: as, b :: bs => a == b && listStarts as bs

/-- Does `needle` occur anywhere in `hay`? -/
def listHasSub (needle : List Char) : List Char → Bool
  | [] => needle.isEmpty
  | b :: bs => listStarts needle (b :: bs) || listHasSub needle bs

/-- JS `hay.includes(needle)`. -/
def strIncludes (hay needle : String) : Bool := listHasSub needle.data hay.data

/-- A catalog product record (`products.json` entry). Optional string fields
default to `""` (JS falsy); `id` may be absent, a string, or a number. -/
structure Product where
  id : Option JsPrim
  name : String
  brand : String
  category : String
  description : String
  image : String
deriving DecidableEq, Repr

/-- `product.id ?? product.name`: the identifier value used for cards and
lookups. -/
def productKey (p : Product) : JsPrim := p.id.getD (JsPrim.str p.name)

/-- The minimal product record produced by `getSelectedProductsData`. -/
structure SelProduct where
  id : Option JsPrim
  name : String
  brand : String
  category : String
  description : String
deriving DecidableEq, Repr

/-- `Set.add`: append if absent (JS sets are insertion-ordered and
duplicate-free). -/
def addUnique (l : List String) (x : String) : List String :=
  if x ∈ l then l else l ++ [x]

/-- `getSelectedProductsData()` (script.js 166-181): for each stored id, find
the first product with `String(it.id ?? it.name) === String(id)` and keep its
minimal fields (`description` defaulting to `""`); unresolved ids are skipped. -/
def getSelectedProductsData (sel : List String) (cache : List Product) :
    List SelProduct :=
  sel.filterMap fun id =>
    (cache.find? fun it => jsString (productKey it) == id).map fun p =>
      { id := p.id, name := p.name, brand := p.brand, category := p.category,
        description := p.description }

/-- The card click handler's product lookup (script.js 737):
`products.find((p) => (p.id ?? p.name) === pid)` — note the strict comparison
against the string `pid` with no `String(...)` normalization. -/
def cardClickFind (pid : String) (products : List Product) : Option Product :=
  products.find? fun p => jsStrictEqStr (productKey p) pid

/-- `saveSelectedToStorage()` (script.js 184-193): the value stored under the
`selectedProductIds` key is `JSON.stringify(Array.from(set))`; we model the
stored value as that array (JSON round-trips an array of strings exactly). -/
def saveSelectedToStorage (sel : List String) : List JsPrim :=
  sel.map JsPrim.str

/-- `loadSelectedFromStorage()` (script.js 195-206): parse the stored array
and `add(String(id))` each entry into the selection set `into`. -/
def loadSelectedFromStorage (stored : List JsPrim) (into : List String) :
    List String :=
  stored.foldl (fun s v => addUnique s (jsString v)) into

/-- The card click toggle (script.js 722-730): if the set has `pid`, delete
it; otherwise add it. -/
def toggleSelected (s : List String) (pid : String) : List String :=
  if pid ∈ s then s.filter (fun x => x != pid) else addUnique s pid

/-! ## Filter engine (`applyFilters`, script.js 513-642, and the
initial-load block, script.js 784-798) -/

/-- What `applyFilters` writes into the products container. -/
inductive RenderResult where
  | placeholder
  | noMatches
  | products (ps : List Product)
deriving DecidableEq, Repr

/-- Test of the templating-leftover regex on the category value
(script.js 527): matches values starting with a hash or containing a colon. -/
def hasTemplating (s : String) : Bool :=
  s.startsWith "#" || s.data.contains ':'

/-- JS regex word character, for the hash-word-colon leftover pattern. -/
def isWordChar (c : Char) : Bool := c.isAlphanum || c == '_'

/-- The fallback normalization of a templated category value
(script.js 542): strip a leading hash-word-colon pattern if present.
The primary path reads the selected option's visible text from the DOM and
has no data-level content; only the fallback strip is modelled. -/
def stripTemplated (s : String) : String :=
  match s.data with
  | '#' :: rest =>
    let w := rest.takeWhile isWordChar
    let r := rest.dropWhile isWordChar
    if w ≠ [] ∧ r.head? = some ':' then String.mk r.tail else s
  | _ => s

/-- Normalization applied to the raw category control value before filtering
(script.js 522-551). -/
def normalizeCategoryValue (v : String) : String :=
  if v ≠ "" ∧ hasTemplating v then jsTrim (stripTemplated v) else v

/-- The category filtering stage (script.js 573-581): when the selected
category is non-empty, keep products whose category, trimmed and lower-cased,
equals the selected category trimmed and lower-cased; otherwise leave the
list untouched. -/
def categoryStage (ps : List Product) (selectedCategory : String) :
    List Product :=
  if selectedCategory ≠ "" then
    ps.filter fun p => jsNorm p.category == jsNorm selectedCategory
  else ps

/-- The space-joined searchable fields of a product (script.js 591-598). -/
def searchFields (p : Product) : String :=
  p.name ++ " " ++ p.brand ++ " " ++ p.description ++ " " ++ p.category

/-- The search filtering stage (script.js 589-601): when the query is
non-empty, keep products whose lower-cased joined fields contain it. -/
def searchStage (ps : List Product) (q : String) : List Product :=
  if q ≠ "" then ps.filter (fun p => strIncludes (jsLower (searchFields p)) q)
  else ps

/-- `applyFilters` (script.js 513-642) as a pure function from the catalog
and the two control values to the rendering decision: placeholder when both
terms are empty, a no-matches message when filtering leaves nothing, the
filtered list otherwise. -/
def applyFilters (ps : List Product) (categoryValue searchValue : String) :
    RenderResult :=
  let sc := normalizeCategoryValue categoryValue
  let q := jsNorm searchValue
  let filtered := searchStage (categoryStage ps sc) q
  if sc = "" ∧ q = "" then .placeholder
  else if filtered = [] then .noMatches
  else .products filtered

/-- The initial-load block (script.js 784-798): copy the catalog, filter by
the raw default category value (strict, un-normalized equality) only when it
is non-empty, and render the result. -/
def initialLoad (ps : List Product) (defaultCategory : String) :
    List Product :=
  if defaultCategory ≠ "" then ps.filter (fun p => p.category == defaultCategory)
  else ps

/-- What the initial-load block renders: always `displayProducts` of the
(possibly unfiltered) list — never a placeholder. -/
def initialLoadRender (ps : List Product) (defaultCategory : String) :
    RenderResult :=
  RenderResult.products (initialLoad ps defaultCategory)

/-! ## Local routine builder (`buildLocalRoutine`, script.js 301-364) -/

/-- The fixed priority order of skincare categories (script.js 303-313). -/
def priorityOrder : List String :=
  ["cleanser", "exfoliant", "toner", "essence", "serum", "eye", "moisturizer",
   "oil", "sunscreen"]

/-- One routine step (script.js 330-334). -/
structure RStep where
  cat : String
  name : String
  reason : String
deriving DecidableEq, Repr

/-- `prod.brand || "brand"`. -/
def brandOr (b : String) : String := if b = "" then "brand" else b

/-- A step emitted in the priority walk (script.js 330-334). -/
def mkStep1 (cat : String) (p : SelProduct) : RStep :=
  ⟨cat, p.name, "Use " ++ p.name ++ " (" ++ brandOr p.brand ++ ") as a "
    ++ cat ++ "."⟩

/-- A step emitted for a leftover category (script.js 343-349). -/
def mkStep2 (cat : String) (p : SelProduct) : RStep :=
  ⟨cat, p.name, "Use " ++ p.name ++ " (" ++ brandOr p.brand ++ ") in the "
    ++ cat ++ " step."⟩

/-- `String(p.category || "other").trim().toLowerCase()` (script.js 317-319):
the bucket key of a product. -/
def normCategory (p : SelProduct) : String :=
  jsNorm (if p.category = "" then "other" else p.category)

/-- The `buckets` object: an insertion-ordered association list from bucket
key to the products pushed under it. -/
abbrev Buckets := List (String × List SelProduct)

/-- `if (!buckets[cat]) buckets[cat] = []; buckets[cat].push(p)`
(script.js 320-321): push onto an existing bucket, or create a new key at the
end. -/
def bucketAdd : Buckets → String → SelProduct → Buckets
  | [], k, p => [(k, [p])]
  | (k', l) :: rest, k, p =>
    if k' = k then (k', l ++ [p]) :: rest else (k', l) :: bucketAdd rest k p

/-- Grouping loop of `buildLocalRoutine` (script.js 315-322). -/
def buildBuckets (ps : List SelProduct) : Buckets :=
  ps.foldl (fun bs p => bucketAdd bs (normCategory p) p) []

/-- `buckets[cat]` as a lookup. -/
def bucketGet (bs : Buckets) (k : String) : Option (List SelProduct) :=
  (bs.find? fun kv => kv.1 == k).map (·.2)

/-- `Object.keys(buckets)`: the keys in insertion order. -/
def bucketKeys (bs : Buckets) : List String := bs.map (·.1)

/-- `delete buckets[cat]` (keys are unique by construction). -/
def bucketDel (bs : Buckets) (k : String) : Buckets :=
  bs.filter fun kv => kv.1 != k

/-- The priority walk (script.js 325-338): for each category of the fixed
order, if its bucket exists and is non-empty, emit one step per product and
delete the bucket. -/
def walkPriority (bs : Buckets) : List String → List RStep × Buckets
  | [] => ([], bs)
  | c :: cs =>
    match bucketGet bs c with
    | none => walkPriority bs cs
    | some l =>
      if l = [] then walkPriority bs cs
      else
        let r := walkPriority (bucketDel bs c) cs
        (l.map (mkStep1 c) ++ r.1, r.2)

/-- The leftover loop (script.js 341-351): walk the remaining keys in
insertion order, emitting one step per product. -/
def leftoverSteps (bs : Buckets) : List RStep :=
  bs.foldl (fun acc kv => acc ++ kv.2.map (mkStep2 kv.1)) []

/-- The full step sequence assembled by `buildLocalRoutine`. -/
def routineSteps (ps : List SelProduct) : List RStep :=
  let w := walkPriority (buildBuckets ps) priorityOrder
  w.1 ++ leftoverSteps w.2

/-- The fixed closing precaution line (script.js 361). -/
def precautionLine : String :=
  "Short precautions: Patch test new products and avoid mixing strong actives."

/-- The fixed empty-selection message (script.js 354). -/
def noProductsMsg : String := "No products selected to build a routine."

/-- `buildLocalRoutine` (script.js 301-364): the formatted plain-text
routine. -/
def buildLocalRoutine (ps : List SelProduct) : String :=
  let steps := routineSteps ps
  if steps = [] then noProductsMsg
  else
    String.intercalate "\n"
      (["Recommended routine based on selected products:", ""]
        ++ steps.enum.map (fun is =>
            toString (is.1 + 1) ++ ". " ++ is.2.name ++ " — " ++ is.2.reason)
        ++ ["", precautionLine])

/-! Spec-side rendition of the local-mode ordering, following the words of
spec §4.6 (local mode) for comparison with the source definition above:
priority categories first in their fixed order, each bucket in original
selection order, then the categories outside the priority list in
first-encountered order. -/

/-- Category keys in first-encountered order. -/
def firstEncountered (xs : List String) : List String :=
  xs.foldl addUnique []

/-- The non-priority categories, in the order they are first encountered. -/
def specLeftoverCats (ps : List SelProduct) : List String :=
  (firstEncountered (ps.map normCategory)).filter
    fun c => decide (c ∉ priorityOrder)

/-- The step sequence as the spec words it: one step per product of each
priority category in fixed order (selection order within a category), then
one step per product of each remaining category in first-encountered order. -/
def specSteps (ps : List SelProduct) : List RStep :=
  (priorityOrder.flatMap fun c =>
      (ps.filter fun p => normCategory p == c).map (mkStep1 c))
    ++ (specLeftoverCats ps).flatMap fun c =>
      (ps.filter fun p => normCategory p == c).map (mkStep2 c)

/-! ## Detail overlay lifecycle (`showProductModal` script.js 101-163,
`closeExistingModal` script.js 85-98)

The DOM state relevant to the overlay singleton claim: the overlay elements
currently in the document (all carry the DOM id `product-modal-overlay`, so
`getElementById` returns the first), the document-level `keydown` handlers
registered by overlays, and the highlighted card. Each overlay created by
`showProductModal` gets a fresh token. -/

/-- An overlay instance: its creation token and the card it belongs to. -/
structure Overlay where
  tok : Nat
  card : Nat
deriving DecidableEq, Repr

/-- The modelled DOM/listener state. -/
structure UIState where
  nextId : Nat
  overlays : List Overlay
  listeners : List Overlay
  highlight : Option Nat
deriving DecidableEq, Repr

/-- `closeModal` of a given overlay (script.js 147-151): remove the overlay
element, un-highlight its card, and remove its own document keydown
listener. -/
def closeModalFn (o : Overlay) (s : UIState) : UIState :=
  { s with
    overlays := s.overlays.filter fun x => x.tok != o.tok,
    listeners := s.listeners.filter fun x => x.tok != o.tok,
    highlight := if s.highlight = some o.card then none else s.highlight }

/-- `showProductModal` (script.js 101-163): clear highlights, highlight the
clicked card, remove the first existing overlay element directly
(`existing.remove()`, script.js 107-108 — not via its close function), append
the new overlay, and register its document keydown listener. -/
def showProductModalFn (card : Nat) (s : UIState) : UIState :=
  let remaining := match s.overlays with
    | [] => []
    | _ :: t => t
  { nextId := s.nextId + 1,
    overlays := remaining ++ [⟨s.nextId, card⟩],
    listeners := s.listeners ++ [⟨s.nextId, card⟩],
    highlight := some card }

/-- `closeExistingModal` (script.js 85-98): if an overlay element exists,
invoke its stored close function (every overlay built by `showProductModal`
stores one, and it does not throw in this model). -/
def closeExistingModalFn (s : UIState) : UIState :=
  match s.overlays with
  | [] => s
  | e :: _ => closeModalFn e s

/-- An Escape keypress: the document dispatches to every registered keydown
handler in registration order; each handler runs its overlay's `closeModal`
(script.js 159-162). A handler only removes itself, so all handlers in the
dispatch snapshot fire. -/
def pressEscapeFn (s : UIState) : UIState :=
  s.listeners.foldl (fun st l => closeModalFn l st) s

/-- The user-visible overlay operations. `closeCurrent` covers the close
button, the outside click, and `closeExistingModal`, which all run the open
overlay's close function. -/
inductive UIOp where
  | openModal (card : Nat)
  | closeCurrent
  | pressEscape
deriving DecidableEq, Repr

/-- One step of the overlay lifecycle. -/
def stepUI (s : UIState) : UIOp → UIState
  | .openModal c => showProductModalFn c s
  | .closeCurrent => closeExistingModalFn s
  | .pressEscape => pressEscapeFn s

/-- The page-load state: no overlay, no overlay listener, no highlight. -/
def initUI : UIState := ⟨0, [], [], none⟩

/-- Run a sequence of overlay operations from a state. -/
def runUI (ops : List UIOp) (s : UIState) : UIState :=
  ops.foldl stepUI s

/-! ## Routine generation entry point (`generateRoutine`, script.js 367-456) -/

/-- The outcome of the single `fetch` to the generation endpoint, as observed
by `generateRoutine`: a non-OK response (status, status text, raw body), an
OK response with the extracted text of its first choice (`message.content`
with `text` as fallback, `none` when neither is present), or a rejection of
the fetch / body parse (the caught error's message). -/
inductive RemoteOutcome where
  | httpError (status : Nat) (statusText : String) (body : String)
  | success (aiText : Option String)
  | failure (message : String)
deriving DecidableEq, Repr

/-- What a `generateRoutine()` call leaves behind: the final markup written
into the chat window and how many network requests were issued. -/
structure GenResult where
  output : String
  networkCalls : Nat
deriving DecidableEq, Repr

/-- The empty-selection message (script.js 383-384). -/
def selectFirstMsg : String :=
  "<div>Please select at least one product before generating a routine.</div>"

/-- `generateRoutine` (script.js 367-456) as a pure function of the selection
set, the catalog cache (`[]` when not yet loaded), the API key (`""` when
absent) and the remote outcome. Every branch, including the caught failure,
ends by writing markup into the chat window; the try/catch guarantees
totality over outcomes. -/
def generateRoutine (sel : List String) (cache : List Product)
    (apiKey : String) (remote : RemoteOutcome) : GenResult :=
  let selected := getSelectedProductsData sel cache
  if selected = [] then
    { output := selectFirstMsg, networkCalls := 0 }
  else if apiKey = "" then
    { output := "<div style=\"white-space:pre-wrap\">"
        ++ buildLocalRoutine selected ++ "</div>",
      networkCalls := 0 }
  else
    { output :=
        match remote with
        | .httpError st stx b =>
          "<div>API error: " ++ toString st ++ " " ++ stx
            ++ "<pre style=\"white-space:pre-wrap\">" ++ b ++ "</pre></div>"
        | .success none => "<div>No response from the API.</div>"
        | .success (some t) =>
          "<div style=\"white-space:pre-wrap\">" ++ t ++ "</div>"
        | .failure m => "<div>Request failed: " ++ m ++ "</div>",
      networkCalls := 1 }

/-! ## Concrete records used by witnesses and counterexamples -/

/-- A cleanser product with a string id. -/
def exCleanser : Product :=
  ⟨some (.str "c1"), "Gentle Wash", "CeraVe", "Cleanser", "", ""⟩

/-- A sunscreen product with a string id. -/
def exSunscreen : Product :=
  ⟨some (.str "s1"), "UV Shield", "", "  Sunscreen ", "", ""⟩

/-- A product of a category outside the priority list. -/
def exUnknown : Product :=
  ⟨none, "Mystery Balm", "ACME", "balm", "", ""⟩

/-- A product whose catalog id is the number 7. -/
def exNumericId : Product :=
  ⟨some (.num 7), "Numbered", "L", "serum", "", ""⟩

/-- The minimal records of the three example products, as materialized by
`getSelectedProductsData` in selection order sunscreen, cleanser, unknown. -/
def exSelection : List SelProduct :=
  [⟨some (.str "s1"), "UV Shield", "", "  Sunscreen ", ""⟩,
   ⟨some (.str "c1"), "Gentle Wash", "CeraVe", "Cleanser", ""⟩,
   ⟨none, "Mystery Balm", "ACME", "balm", ""⟩]

/-! ## General helper lemmas -/

theorem mem_addUnique {l : List String} {x y : String} :
    x ∈ addUnique l y ↔ x ∈ l ∨ x = y := by
  unfold addUnique
  by_cases h : y ∈ l
  · simp only [if_pos h]
    constructor
    · exact Or.inl
    · rintro (hx | rfl)
      · exact hx
      · exact h
  · simp [if_neg h]

theorem mem_foldl_addUnique {xs acc : List String} {x : String} :
    x ∈ xs.foldl addUnique acc ↔ x ∈ acc ∨ x ∈ xs := by
  induction xs generalizing acc with
  | nil => simp
  | cons y ys ih =>
    simp only [List.foldl_cons, ih, mem_addUnique, List.mem_cons]
    tauto

theorem addUnique_nodup {l : List String} {x : String} (h : l.Nodup) :
    (addUnique l x).Nodup := by
  unfold addUnique
  by_cases hx : x ∈ l
  · simpa [if_pos hx]
  · simp [if_neg hx, List.nodup_append, h, hx]

theorem foldl_addUnique_nodup {xs acc : List String} (h : acc.Nodup) :
    (xs.foldl addUnique acc).Nodup := by
  induction xs generalizing acc with
  | nil => exact h
  | cons y ys ih => exact ih (addUnique_nodup h)

theorem firstEncountered_nodup (xs : List String) :
    (firstEncountered xs).Nodup :=
  foldl_addUnique_nodup List.nodup_nil

theorem foldl_append_flatMap {α β : Type} (f : α → List β) :
    ∀ (l : List α) (acc : List β),
      l.foldl (fun a x => a ++ f x) acc = acc ++ l.flatMap f := by
  intro l
  induction l with
  | nil => simp
  | cons y ys ih => intro acc; simp [ih]

theorem flatMap_congr {α β : Type} {l : List α} {f g : α → List β}
    (h : ∀ x ∈ l, f x = g x) : l.flatMap f = l.flatMap g := by
  induction l with
  | nil => rfl
  | cons y ys ih =>
    simp only [List.flatMap_cons, h y (List.mem_cons_self y ys)]
    rw [ih fun x hx => h x (List.mem_cons_of_mem y hx)]

/-- Shared shape lemma: an empty materialized selection short-circuits
`generateRoutine` into the select-first message with no request. -/
theorem generateRoutine_of_empty (sel : List String) (cache : List Product)
    (key : String) (remote : RemoteOutcome)
    (h : getSelectedProductsData sel cache = []) :
    generateRoutine sel cache key remote =
      { output := selectFirstMsg, networkCalls := 0 } := by
  unfold generateRoutine
  simp [h]

/-! ## Claim C5 -/

/-- C5: persisting any selection set to storage and restoring from that
storage into an empty set reproduces exactly the original membership, every
member being a string (the restored set has type list-of-strings by
construction, each entry being `String(id)` of a stored entry). -/
theorem c5_persist_restore_round_trip (sel : List String) (x : String) :
    x ∈ loadSelectedFromStorage (saveSelectedToStorage sel) [] ↔ x ∈ sel := by
  unfold loadSelectedFromStorage saveSelectedToStorage
  rw [List.foldl_map]
  simp only [jsString]
  rw [show (fun (s : List String) (y : String) => addUnique s y) = addUnique
    from rfl]
  simp [mem_foldl_addUnique]

/-! ## Claim C6 -/

/-- C6: toggling the same identifier twice restores the original membership
of the selection set, where one toggle adds the identifier if absent and
removes it if present. -/
theorem c6_toggle_twice_restores_membership (s : List String)
    (pid x : String) :
    x ∈ toggleSelected (toggleSelected s pid) pid ↔ x ∈ s := by
  by_cases h : pid ∈ s
  · have e1 : toggleSelected s pid = s.filter (fun y => y != pid) := by
      simp [toggleSelected, h]
    have h1 : pid ∉ s.filter (fun y => y != pid) := by
      simp [List.mem_filter]
    have e2 : toggleSelected (s.filter fun y => y != pid) pid
        = s.filter (fun y => y != pid) ++ [pid] := by
      simp [toggleSelected, addUnique, h1]
    rw [e1, e2]
    simp only [List.mem_append, List.mem_filter, List.mem_singleton,
      bne_iff_ne, ne_eq]
    constructor
    · rintro (⟨hx, _⟩ | rfl)
      · exact hx
      · exact h
    · intro hx
      by_cases hxp : x = pid
      · exact Or.inr hxp
      · exact Or.inl ⟨hx, hxp⟩
  · have e1 : toggleSelected s pid = s ++ [pid] := by
      simp [toggleSelected, addUnique, h]
    have h1 : pid ∈ s ++ [pid] := by simp
    have e2 : toggleSelected (s ++ [pid]) pid
        = (s ++ [pid]).filter (fun y => y != pid) := by
      simp [toggleSelected, h1]
    rw [e1, e2, List.filter_append]
    have h2 : s.filter (fun y => y != pid) = s :=
      List.filter_eq_self.2 fun a ha => by
        simp only [bne_iff_ne, ne_eq]
        rintro rfl
        exact h ha
    simp [h2]

/-! ## Claim C3 (corrected) -/

/-- C3 counterexample: with both terms empty, the initial-load path of the
pipeline (script.js 784-798) renders the full catalog, not the placeholder,
refuting the claim that the pipeline never renders the full catalog when
both terms are empty. -/
theorem c3_counterexample :
    initialLoadRender [exCleanser] "" = RenderResult.products [exCleanser] ∧
    RenderResult.products [exCleanser] ≠ RenderResult.placeholder :=
  ⟨rfl, by decide⟩

/-- C3 amended: `applyFilters` with both terms empty always produces the
placeholder and never the catalog, but the initial-load block, whose default
category value is empty, renders the entire catalog once. -/
theorem c3_empty_terms_placeholder (ps : List Product) :
    applyFilters ps "" "" = RenderResult.placeholder ∧
    initialLoadRender ps "" = RenderResult.products ps :=
  ⟨rfl, rfl⟩

/-! ## Claim C4 (code bug) -/

/-- C4: evaluation at the failing input. For a product whose catalog id is
the number 7, the rendered card carries `data-product-id="7"` (template
interpolation stringifies), yet the card-click lookup
`products.find((p) => (p.id ?? p.name) === pid)` compares the number 7
strictly against the string "7" and finds nothing, so no modal opens; the
string-normalizing lookup of `getSelectedProductsData` does resolve the same
identifier. -/
theorem c4_numeric_id_lookup_fails :
    cardClickFind (jsString (productKey exNumericId)) [exNumericId] = none ∧
    getSelectedProductsData [jsString (productKey exNumericId)]
      [exNumericId] ≠ [] := by
  constructor
  · rfl
  · decide

/-! ## Claim C8 -/

/-- C8: requesting a routine while the materialized selection is empty shows
the select-at-least-one-product message and issues no network request. -/
theorem c8_empty_selection_no_network (sel : List String)
    (cache : List Product) (key : String) (remote : RemoteOutcome)
    (h : getSelectedProductsData sel cache = []) :
    generateRoutine sel cache key remote =
      { output := selectFirstMsg, networkCalls := 0 } :=
  generateRoutine_of_empty sel cache key remote h

/-- C8 witness at a concrete input. -/
theorem c8_witness :
    generateRoutine [] [] "" (RemoteOutcome.success none) =
      { output := selectFirstMsg, networkCalls := 0 } :=
  c8_empty_selection_no_network [] [] "" (RemoteOutcome.success none) rfl

/-! ## Claim C10 -/

/-- C10: every selected identifier that resolves to no product in the
catalog cache is silently dropped, so a non-empty selection none of whose
identifiers resolve (for example when the catalog is not yet loaded)
materializes to the empty list and behaves exactly like an empty selection:
the select-first message is shown and no request is made. -/
theorem c10_unresolvable_selection_like_empty (sel : List String)
    (cache : List Product) (key : String) (remote : RemoteOutcome)
    (_hne : sel ≠ [])
    (h : ∀ id ∈ sel,
      cache.find? (fun it => jsString (productKey it) == id) = none) :
    getSelectedProductsData sel cache = [] ∧
    generateRoutine sel cache key remote =
      { output := selectFirstMsg, networkCalls := 0 } := by
  have hempty : getSelectedProductsData sel cache = [] := by
    unfold getSelectedProductsData
    rw [List.filterMap_eq_nil_iff]
    intro id hid
    rw [h id hid]
    rfl
  exact ⟨hempty, generateRoutine_of_empty sel cache key remote hempty⟩

/-- C10 witness: a non-empty selection against the unloaded (empty) catalog
cache. -/
theorem c10_witness :
    getSelectedProductsData ["7"] [] = [] ∧
    generateRoutine ["7"] [] "key" (RemoteOutcome.success none) =
      { output := selectFirstMsg, networkCalls := 0 } :=
  c10_unresolvable_selection_like_empty ["7"] [] "key"
    (RemoteOutcome.success none) (by decide) (by intro id _; rfl)

/-! ## Claim C7 (corrected) -/

/-- C7 counterexample: the terms `""` and `" "` differ only in surrounding
whitespace (identical once trimmed and lower-cased), yet the category filter
stage returns different subsets: the empty term skips filtering entirely
(keeping the cleanser product), while the whitespace term filters against the
normalized term `""` and keeps nothing. -/
theorem c7_counterexample :
    jsNorm "" = jsNorm " " ∧
    categoryStage [exCleanser] "" ≠ categoryStage [exCleanser] " " := by
  constructor
  · rfl
  · decide

/-- C7 amended: for every pair of non-empty category terms that agree once
trimmed and lower-cased, the category filter stage returns the same subset,
and with a non-empty term a product is kept exactly when its category,
trimmed and lower-cased, equals the term trimmed and lower-cased; with an
empty term the stage is skipped and keeps every product (that case is
governed by the empty-term placeholder rule instead). -/
theorem c7_category_filter_normalized :
    (∀ (ps : List Product) (t₁ t₂ : String), t₁ ≠ "" → t₂ ≠ "" →
      jsNorm t₁ = jsNorm t₂ → categoryStage ps t₁ = categoryStage ps t₂) ∧
    (∀ (ps : List Product) (t : String) (p : Product), t ≠ "" →
      (p ∈ categoryStage ps t ↔ p ∈ ps ∧ jsNorm p.category = jsNorm t)) ∧
    (∀ ps : List Product, categoryStage ps "" = ps) := by
  refine ⟨?_, ?_, ?_⟩
  · intro ps t₁ t₂ h₁ h₂ h
    unfold categoryStage
    rw [if_pos h₁, if_pos h₂]
    simp only [h]
  · intro ps t p ht
    unfold categoryStage
    rw [if_pos ht]
    simp [List.mem_filter]
  · intro ps
    rfl

/-- C7 witness: the amended statement applied at concrete inputs — a term
differing in case and trailing whitespace selects the same subset, the
kept-exactly-when characterization holds for the cleanser product, and the
empty term keeps the whole list. -/
theorem c7_witness :
    categoryStage [exCleanser] "CLEANSER " = categoryStage [exCleanser]
      "cleanser" ∧
    (exCleanser ∈ categoryStage [exCleanser] "cleanser" ↔
      exCleanser ∈ [exCleanser] ∧
        jsNorm exCleanser.category = jsNorm "cleanser") ∧
    categoryStage [exCleanser] "" = [exCleanser] :=
  ⟨c7_category_filter_normalized.1 [exCleanser] "CLEANSER " "cleanser"
      (by decide) (by decide) (by decide),
   c7_category_filter_normalized.2.1 [exCleanser] "cleanser" exCleanser
      (by decide),
   c7_category_filter_normalized.2.2 [exCleanser]⟩

/-! ## Claim C2 (corrected) -/

theorem closeModalFn_overlays_le (o : Overlay) (s : UIState)
    (h : s.overlays.length ≤ 1) : (closeModalFn o s).overlays.length ≤ 1 :=
  le_trans (List.length_filter_le _ _) h

theorem pressEscapeFn_fold_overlays_le (ls : List Overlay) :
    ∀ s : UIState, s.overlays.length ≤ 1 →
      (ls.foldl (fun st l => closeModalFn l st) s).overlays.length ≤ 1 := by
  induction ls with
  | nil => intro s h; exact h
  | cons l ls ih => intro s h; exact ih _ (closeModalFn_overlays_le l s h)

theorem stepUI_overlays_le (s : UIState) (op : UIOp)
    (h : s.overlays.length ≤ 1) : (stepUI s op).overlays.length ≤ 1 := by
  cases op with
  | openModal c =>
    show (showProductModalFn c s).overlays.length ≤ 1
    unfold showProductModalFn
    cases hs : s.overlays with
    | nil => simp
    | cons e t =>
      rw [hs] at h
      simp only [List.length_cons] at h
      have : t.length = 0 := by omega
      simp [this, List.length_append]
  | closeCurrent =>
    show (closeExistingModalFn s).overlays.length ≤ 1
    unfold closeExistingModalFn
    cases s.overlays with
    | nil => exact h
    | cons e t => exact closeModalFn_overlays_le e s h
  | pressEscape => exact pressEscapeFn_fold_overlays_le s.listeners s h

theorem runUI_overlays_le (ops : List UIOp) :
    ∀ s : UIState, s.overlays.length ≤ 1 →
      (runUI ops s).overlays.length ≤ 1 := by
  induction ops with
  | nil => intro s h; exact h
  | cons op ops ih => intro s h; exact ih _ (stepUI_overlays_le s op h)

/-- C2 counterexample: opening the overlay for card 2 while the overlay for
card 1 (token 0) is open removes overlay 0 from the document but leaves its
document-level keydown listener registered — refuting the claim that no key
listener of a replaced overlay remains after replacement
(`showProductModal` removes the existing element directly instead of calling
its stored close function, script.js 107-108). -/
theorem c2_counterexample :
    (runUI [UIOp.openModal 1, UIOp.openModal 2] initUI).overlays =
      [⟨1, 2⟩] ∧
    (runUI [UIOp.openModal 1, UIOp.openModal 2] initUI).listeners =
      [⟨0, 1⟩, ⟨1, 2⟩] ∧
    Overlay.mk 0 1 ∉
      (runUI [UIOp.openModal 1, UIOp.openModal 2] initUI).overlays := by
  refine ⟨rfl, rfl, ?_⟩
  decide

/-- C2 amended: at most one overlay element ever exists (opening removes any
existing overlay element before inserting the new one), and an explicit
close of the open overlay via `closeExistingModal` removes both the overlay
and that overlay's document keydown listener; but replacement alone does not
run the previous overlay's close routine, so its key listener stays
registered until that handler next fires (see the counterexample). -/
theorem c2_overlay_singleton :
    (∀ ops : List UIOp, ((runUI ops initUI).overlays).length ≤ 1) ∧
    (∀ (n : Nat) (o : Overlay) (ls : List Overlay) (hl : Option Nat),
      (closeExistingModalFn ⟨n, [o], ls, hl⟩).overlays = [] ∧
      (closeExistingModalFn ⟨n, [o], ls, hl⟩).listeners =
        ls.filter (fun x => x.tok != o.tok)) := by
  constructor
  · intro ops
    exact runUI_overlays_le ops initUI (by simp [initUI])
  · intro n o ls hl
    constructor
    · show ([o].filter fun x => x.tok != o.tok) = []
      simp
    · rfl

/-! ## Claim C9 -/

theorem listStarts_self_append (n rest : List Char) :
    listStarts n (n ++ rest) = true := by
  induction n with
  | nil => rfl
  | cons a as ih => simp [listStarts, ih]

theorem listHasSub_of_starts {n hay : List Char}
    (h : listStarts n hay = true) : listHasSub n hay = true := by
  cases hay with
  | nil =>
    cases n with
    | nil => rfl
    | cons a as => exact absurd h (by simp [listStarts])
  | cons b bs => simp [listHasSub, h]

theorem listHasSub_parts (pre n post : List Char) :
    listHasSub n (pre ++ (n ++ post)) = true := by
  induction pre with
  | nil => exact listHasSub_of_starts (listStarts_self_append n post)
  | cons c cs ih => simp [listHasSub, ih]

/-- Substring occurrence in a three-part concatenation. -/
theorem strIncludes_parts (a b c : String) :
    strIncludes (a ++ b ++ c) b = true := by
  unfold strIncludes
  rw [String.data_append, String.data_append, List.append_assoc]
  exact listHasSub_parts a.data b.data c.data

/-- C9: in remote mode (key present, non-empty materialized selection),
every outcome of the request — including a rejected fetch or an unparseable
body, which the `try`/`catch` converts into the caught error message — ends
with exactly one request issued and an in-place message written into the
chat window (the embedding is total over outcomes: nothing propagates, and
there is no retry); a non-OK response's message contains the status code and
the raw response body. -/
theorem c9_remote_errors_in_place (sel : List String) (cache : List Product)
    (key : String) (remote : RemoteOutcome) (hkey : key ≠ "")
    (hsel : getSelectedProductsData sel cache ≠ []) :
    (generateRoutine sel cache key remote).networkCalls = 1 ∧
    (∀ m, remote = RemoteOutcome.failure m →
      (generateRoutine sel cache key remote).output =
        "<div>Request failed: " ++ m ++ "</div>") ∧
    (∀ st stx b, remote = RemoteOutcome.httpError st stx b →
      strIncludes (generateRoutine sel cache key remote).output
        (toString st) = true ∧
      strIncludes (generateRoutine sel cache key remote).output b = true) := by
  have hgen : generateRoutine sel cache key remote =
      { output :=
          match remote with
          | .httpError st stx b =>
            "<div>API error: " ++ toString st ++ " " ++ stx
              ++ "<pre style=\"white-space:pre-wrap\">" ++ b ++ "</pre></div>"
          | .success none => "<div>No response from the API.</div>"
          | .success (some t) =>
            "<div style=\"white-space:pre-wrap\">" ++ t ++ "</div>"
          | .failure m => "<div>Request failed: " ++ m ++ "</div>",
        networkCalls := 1 } := by
    unfold generateRoutine
    rw [if_neg hsel, if_neg hkey]
  refine ⟨by rw [hgen], ?_, ?_⟩
  · intro m hm
    subst hm
    rw [hgen]
  · intro st stx b hb
    subst hb
    rw [hgen]
    refine ⟨?_, ?_⟩
    · show strIncludes
        ("<div>API error: " ++ toString st ++ " " ++ stx
          ++ "<pre style=\"white-space:pre-wrap\">" ++ b ++ "</pre></div>")
        (toString st) = true
      have hshape :
          "<div>API error: " ++ toString st ++ " " ++ stx
              ++ "<pre style=\"white-space:pre-wrap\">" ++ b ++ "</pre></div>"
            = "<div>API error: " ++ toString st
              ++ (" " ++ stx ++ "<pre style=\"white-space:pre-wrap\">" ++ b
                  ++ "</pre></div>") := by
        simp [String.append_assoc]
      rw [hshape]
      exact strIncludes_parts "<div>API error: " (toString st) _
    · show strIncludes
        ("<div>API error: " ++ toString st ++ " " ++ stx
          ++ "<pre style=\"white-space:pre-wrap\">" ++ b ++ "</pre></div>")
        b = true
      exact strIncludes_parts
        ("<div>API error: " ++ toString st ++ " " ++ stx
          ++ "<pre style=\"white-space:pre-wrap\">") b "</pre></div>"

/-- C9 witness: a concrete remote-mode call whose response is a 500 error;
exactly one request, and the rendered message contains the status code and
the raw body. -/
theorem c9_witness :
    (generateRoutine ["c1"] [exCleanser] "key"
        (RemoteOutcome.httpError 500 "ERR" "badbody")).networkCalls = 1 ∧
    strIncludes (generateRoutine ["c1"] [exCleanser] "key"
        (RemoteOutcome.httpError 500 "ERR" "badbody")).output
      (toString 500) = true ∧
    strIncludes (generateRoutine ["c1"] [exCleanser] "key"
        (RemoteOutcome.httpError 500 "ERR" "badbody")).output
      "badbody" = true := by
  have h := c9_remote_errors_in_place ["c1"] [exCleanser] "key"
    (RemoteOutcome.httpError 500 "ERR" "badbody") (by decide) (by decide)
  have hh := h.2.2 500 "ERR" "badbody" rfl
  exact ⟨h.1, hh.1, hh.2⟩

/-! ## Claim C1: lemmas about the bucket machinery -/

theorem bucketGet_cons (k' : String) (l : List SelProduct) (rest : Buckets)
    (c : String) :
    bucketGet ((k', l) :: rest) c =
      if k' = c then some l else bucketGet rest c := by
  unfold bucketGet
  by_cases h : k' = c
  · rw [List.find?_cons_of_pos _ (by simpa using h), if_pos h]
    rfl
  · rw [List.find?_cons_of_neg _ (by simpa using h), if_neg h]

theorem bucketGet_bucketAdd (bs : Buckets) (k : String) (p : SelProduct)
    (c : String) :
    bucketGet (bucketAdd bs k p) c =
      if c = k then some (((bucketGet bs k).getD []) ++ [p])
      else bucketGet bs c := by
  induction bs with
  | nil =>
    by_cases h : c = k
    · subst h
      simp [bucketAdd, bucketGet_cons, bucketGet]
    · simp [bucketAdd, bucketGet_cons, bucketGet, h, Ne.symm h]
  | cons kv rest ih =>
    obtain ⟨k', l⟩ := kv
    by_cases hk : k' = k
    · subst hk
      rw [show bucketAdd ((k', l) :: rest) k' p
          = (k', l ++ [p]) :: rest from by simp [bucketAdd]]
      by_cases hc : c = k'
      · subst hc
        simp [bucketGet_cons]
      · simp [bucketGet_cons, hc, Ne.symm hc]
    · rw [show bucketAdd ((k', l) :: rest) k p
          = (k', l) :: bucketAdd rest k p from by simp [bucketAdd, hk]]
      by_cases hc : c = k
      · subst hc
        simp [bucketGet_cons, ih, hk]
      · by_cases hc' : k' = c
        · subst hc'
          simp [bucketGet_cons, hc]
        · simp [bucketGet_cons, hc, hc', ih]

theorem bucketGet_buildFold (ps : List SelProduct) :
    ∀ (bs : Buckets) (c : String),
      bucketGet (ps.foldl (fun b p => bucketAdd b (normCategory p) p) bs) c =
        match bucketGet bs c with
        | some l => some (l ++ ps.filter fun p => normCategory p == c)
        | none =>
          if (ps.filter fun p => normCategory p == c) = [] then none
          else some (ps.filter fun p => normCategory p == c) := by
  induction ps with
  | nil =>
    intro bs c
    cases h : bucketGet bs c <;> simp [h]
  | cons p ps' ih =>
    intro bs c
    rw [List.foldl_cons, ih, bucketGet_bucketAdd]
    by_cases hc : c = normCategory p
    · subst hc
      cases h : bucketGet bs (normCategory p) with
      | some l => simp [h, List.filter_cons, List.append_assoc]
      | none => simp [h, List.filter_cons]
    · have hpc : (normCategory p == c) = false := by
        simp [Ne.symm hc]
      simp [hc, List.filter_cons, hpc]

theorem bucketGetD_buildBuckets (ps : List SelProduct) (c : String) :
    (bucketGet (buildBuckets ps) c).getD [] =
      ps.filter fun p => normCategory p == c := by
  unfold buildBuckets
  rw [bucketGet_buildFold]
  rw [show bucketGet [] c = none from rfl]
  by_cases h : (ps.filter fun p => normCategory p == c) = []
  · simp [h]
  · simp [h]

theorem bucketGet_buildBuckets_ne_nil {ps : List SelProduct} {c : String}
    {l : List SelProduct} (h : bucketGet (buildBuckets ps) c = some l) :
    l ≠ [] := by
  unfold buildBuckets at h
  rw [bucketGet_buildFold] at h
  rw [show bucketGet [] c = none from rfl] at h
  by_cases hf : (ps.filter fun p => normCategory p == c) = []
  · rw [if_pos hf] at h
    exact absurd h (by simp)
  · rw [if_neg hf] at h
    cases h
    exact hf

theorem bucketKeys_bucketAdd (bs : Buckets) (k : String) (p : SelProduct) :
    bucketKeys (bucketAdd bs k p) = addUnique (bucketKeys bs) k := by
  induction bs with
  | nil => simp [bucketAdd, bucketKeys, addUnique]
  | cons kv rest ih =>
    obtain ⟨k', l⟩ := kv
    by_cases hk : k' = k
    · subst hk
      simp [bucketAdd, bucketKeys, addUnique]
    · rw [show bucketAdd ((k', l) :: rest) k p
          = (k', l) :: bucketAdd rest k p from by simp [bucketAdd, hk]]
      rw [show bucketKeys ((k', l) :: bucketAdd rest k p)
          = k' :: bucketKeys (bucketAdd rest k p) from rfl]
      rw [show bucketKeys ((k', l) :: rest) = k' :: bucketKeys rest from rfl]
      rw [ih]
      unfold addUnique
      by_cases hmem : k ∈ bucketKeys rest
      · rw [if_pos hmem, if_pos (by simp [hmem])]
      · have hnotin : k ∉ k' :: bucketKeys rest := by
          simp only [List.mem_cons, not_or]
          exact ⟨fun h => hk h.symm, hmem⟩
        rw [if_neg hmem, if_neg hnotin, List.cons_append]

theorem bucketKeys_buildFold (ps : List SelProduct) :
    ∀ bs : Buckets,
      bucketKeys (ps.foldl (fun b p => bucketAdd b (normCategory p) p) bs) =
        (ps.map normCategory).foldl addUnique (bucketKeys bs) := by
  induction ps with
  | nil => intro bs; rfl
  | cons p ps' ih =>
    intro bs
    rw [List.foldl_cons, ih, List.map_cons, List.foldl_cons,
      bucketKeys_bucketAdd]

theorem bucketKeys_buildBuckets (ps : List SelProduct) :
    bucketKeys (buildBuckets ps) = firstEncountered (ps.map normCategory) := by
  unfold buildBuckets firstEncountered
  exact bucketKeys_buildFold ps []

theorem buildBuckets_values_ne_nil (ps : List SelProduct) :
    ∀ kv ∈ buildBuckets ps, kv.2 ≠ [] := by
  have step : ∀ (bs : Buckets) (k : String) (p : SelProduct),
      (∀ kv ∈ bs, kv.2 ≠ []) → ∀ kv ∈ bucketAdd bs k p, kv.2 ≠ [] := by
    intro bs
    induction bs with
    | nil =>
      intro k p _ kv hkv
      simp only [bucketAdd, List.mem_singleton] at hkv
      subst hkv
      simp
    | cons kv0 rest ih =>
      obtain ⟨k', l⟩ := kv0
      intro k p h kv hkv
      by_cases hk : k' = k
      · subst hk
        rw [show bucketAdd ((k', l) :: rest) k' p
            = (k', l ++ [p]) :: rest from by simp [bucketAdd]] at hkv
        rcases List.mem_cons.1 hkv with hkv | hkv
        · subst hkv; simp
        · exact h kv (List.mem_cons_of_mem _ hkv)
      · rw [show bucketAdd ((k', l) :: rest) k p
            = (k', l) :: bucketAdd rest k p from by simp [bucketAdd, hk]]
          at hkv
        rcases List.mem_cons.1 hkv with hkv | hkv
        · subst hkv
          exact h (k', l) (List.mem_cons_self _ _)
        · exact ih k p (fun kv' hkv' => h kv' (List.mem_cons_of_mem _ hkv'))
            kv hkv
  have fold : ∀ (qs : List SelProduct) (bs : Buckets),
      (∀ kv ∈ bs, kv.2 ≠ []) →
      ∀ kv ∈ qs.foldl (fun b p => bucketAdd b (normCategory p) p) bs,
        kv.2 ≠ [] := by
    intro qs
    induction qs with
    | nil => intro bs h; exact h
    | cons p qs' ih =>
      intro bs h
      exact ih _ (step bs (normCategory p) p h)
  exact fold ps [] (by simp)

/-- An association list with duplicate-free keys is the list of its keys
paired with their lookups. -/
theorem buckets_eq_keys_map (bs : Buckets)
    (h : (bucketKeys bs).Nodup) :
    bs = (bucketKeys bs).map (fun c => (c, (bucketGet bs c).getD [])) := by
  induction bs with
  | nil => rfl
  | cons kv rest ih =>
    obtain ⟨k, l⟩ := kv
    rw [show bucketKeys ((k, l) :: rest) = k :: bucketKeys rest from rfl]
      at h ⊢
    have hk : k ∉ bucketKeys rest := (List.nodup_cons.1 h).1
    have hrest : (bucketKeys rest).Nodup := (List.nodup_cons.1 h).2
    rw [List.map_cons]
    have hhead : (k, (bucketGet ((k, l) :: rest) k).getD []) = (k, l) := by
      rw [bucketGet_cons, if_pos rfl]
      rfl
    rw [hhead]
    congr 1
    have htail : (bucketKeys rest).map
        (fun c => (c, (bucketGet ((k, l) :: rest) c).getD []))
        = (bucketKeys rest).map (fun c => (c, (bucketGet rest c).getD [])) :=
      List.map_congr_left fun c hc => by
        rw [bucketGet_cons, if_neg (fun hkc => hk (by rw [hkc]; exact hc))]
    rw [htail]
    exact ih hrest

theorem bucketGet_bucketDel (bs : Buckets) (k c : String) :
    bucketGet (bucketDel bs k) c = if c = k then none else bucketGet bs c := by
  induction bs with
  | nil =>
    by_cases h : c = k <;> simp [bucketDel, bucketGet, h]
  | cons kv rest ih =>
    obtain ⟨k', l⟩ := kv
    by_cases hk : k' = k
    · subst hk
      rw [show bucketDel ((k', l) :: rest) k' = bucketDel rest k' from by
        simp [bucketDel]]
      rw [ih]
      by_cases hc : c = k'
      · simp [hc]
      · rw [if_neg hc, if_neg hc, bucketGet_cons, if_neg (Ne.symm hc)]
    · rw [show bucketDel ((k', l) :: rest) k
          = (k', l) :: bucketDel rest k from by simp [bucketDel, hk]]
      by_cases hc' : k' = c
      · subst hc'
        simp [bucketGet_cons, hk]
      · rw [bucketGet_cons, if_neg hc', ih, bucketGet_cons, if_neg hc']

theorem walkPriority_cons (bs : Buckets) (c : String) (cs : List String) :
    walkPriority bs (c :: cs) =
      match bucketGet bs c with
      | none => walkPriority bs cs
      | some l =>
        if l = [] then walkPriority bs cs
        else (l.map (mkStep1 c) ++ (walkPriority (bucketDel bs c) cs).1,
              (walkPriority (bucketDel bs c) cs).2) := by
  rw [walkPriority]

theorem leftoverSteps_eq (bs : Buckets) :
    leftoverSteps bs = bs.flatMap fun kv => kv.2.map (mkStep2 kv.1) := by
  unfold leftoverSteps
  rw [foldl_append_flatMap]
  rfl

theorem walkPriority_steps (cs : List String) :
    ∀ bs : Buckets, cs.Nodup →
      (walkPriority bs cs).1 =
        cs.flatMap fun c => ((bucketGet bs c).getD []).map (mkStep1 c) := by
  induction cs with
  | nil => intro bs _; rfl
  | cons c cs ih =>
    intro bs hnd
    obtain ⟨hc, hcs⟩ := List.nodup_cons.1 hnd
    rw [walkPriority_cons, List.flatMap_cons]
    cases h : bucketGet bs c with
    | none => simp [ih bs hcs]
    | some l =>
      by_cases hl : l = []
      · subst hl
        simp [ih bs hcs]
      · have hdel : cs.flatMap (fun x =>
            ((bucketGet (bucketDel bs c) x).getD []).map (mkStep1 x))
            = cs.flatMap fun x =>
              ((bucketGet bs x).getD []).map (mkStep1 x) :=
          flatMap_congr fun x hx => by
            rw [bucketGet_bucketDel,
              if_neg (fun hxc => hc (by rw [← hxc]; exact hx))]
        simp [hl, ih _ hcs, hdel]

theorem walkPriority_buckets (cs : List String) :
    ∀ bs : Buckets, (∀ kv ∈ bs, kv.2 ≠ []) →
      (walkPriority bs cs).2 = bs.filter fun kv => decide (kv.1 ∉ cs) := by
  induction cs with
  | nil =>
    intro bs _
    rw [show (walkPriority bs []).2 = bs from rfl]
    exact (List.filter_eq_self.2 fun kv _ => by simp).symm
  | cons c cs ih =>
    intro bs hbs
    rw [walkPriority_cons]
    cases h : bucketGet bs c with
    | none =>
      have hnot : ∀ kv ∈ bs, kv.1 ≠ c := by
        intro kv hkv
        have hfind : bs.find? (fun kv => kv.1 == c) = none := by
          unfold bucketGet at h
          exact Option.map_eq_none'.1 h
        have := List.find?_eq_none.1 hfind kv hkv
        simpa using this
      show (walkPriority bs cs).2 = _
      rw [ih bs hbs]
      exact List.filter_congr fun kv hkv => by
        simp [List.mem_cons, hnot kv hkv]
    | some l =>
      have hlne : l ≠ [] := by
        unfold bucketGet at h
        obtain ⟨kv, hfind, hmap⟩ := Option.map_eq_some'.1 h
        exact hmap ▸ hbs kv (List.mem_of_find?_eq_some hfind)
      show (if l = [] then walkPriority bs cs
        else (List.map (mkStep1 c) l ++ (walkPriority (bucketDel bs c) cs).1,
          (walkPriority (bucketDel bs c) cs).2)).2
        = List.filter (fun kv => decide (kv.1 ∉ c :: cs)) bs
      rw [if_neg hlne]
      show (walkPriority (bucketDel bs c) cs).2 = _
      rw [ih (bucketDel bs c)
        (fun kv hkv => hbs kv (List.mem_of_mem_filter hkv))]
      unfold bucketDel
      rw [List.filter_filter]
      exact List.filter_congr fun kv _ => by
        by_cases h1 : kv.1 ∈ cs <;> by_cases h2 : kv.1 = c <;>
          simp [h1, h2, List.mem_cons]

/-- The step sequence the code computes equals the step sequence the spec
describes. -/
theorem routineSteps_eq (ps : List SelProduct) :
    routineSteps ps = specSteps ps := by
  unfold routineSteps specSteps
  have hnd : priorityOrder.Nodup := by decide
  have h1 : (walkPriority (buildBuckets ps) priorityOrder).1
      = priorityOrder.flatMap fun c =>
          (ps.filter fun p => normCategory p == c).map (mkStep1 c) := by
    rw [walkPriority_steps priorityOrder (buildBuckets ps) hnd]
    exact flatMap_congr fun c _ => by rw [bucketGetD_buildBuckets]
  have h2 : leftoverSteps (walkPriority (buildBuckets ps) priorityOrder).2
      = (specLeftoverCats ps).flatMap fun c =>
          (ps.filter fun p => normCategory p == c).map (mkStep2 c) := by
    rw [walkPriority_buckets priorityOrder (buildBuckets ps)
      (buildBuckets_values_ne_nil ps)]
    rw [leftoverSteps_eq]
    have hkeysnd : (bucketKeys (buildBuckets ps)).Nodup := by
      rw [bucketKeys_buildBuckets]
      exact firstEncountered_nodup _
    conv_lhs => rw [buckets_eq_keys_map (buildBuckets ps) hkeysnd]
    rw [List.filter_map, List.flatMap_map]
    unfold specLeftoverCats
    rw [← bucketKeys_buildBuckets]
    simp only [Function.comp]
    exact flatMap_congr fun c _ => by rw [bucketGetD_buildBuckets]
  show (walkPriority (buildBuckets ps) priorityOrder).1
    ++ leftoverSteps (walkPriority (buildBuckets ps) priorityOrder).2 = _
  rw [h1, h2]

theorem specSteps_ne_nil {ps : List SelProduct} (h : ps ≠ []) :
    specSteps ps ≠ [] := by
  obtain ⟨p, rest, rfl⟩ := List.exists_cons_of_ne_nil h
  by_cases hmem : normCategory p ∈ priorityOrder
  · have hstep : mkStep1 (normCategory p) p ∈ specSteps (p :: rest) := by
      unfold specSteps
      apply List.mem_append_left
      rw [List.mem_flatMap]
      refine ⟨normCategory p, hmem, ?_⟩
      apply List.mem_map_of_mem
      rw [List.mem_filter]
      exact ⟨List.mem_cons_self _ _, by simp⟩
    exact List.ne_nil_of_mem hstep
  · have hcelem : normCategory p ∈ specLeftoverCats (p :: rest) := by
      unfold specLeftoverCats
      rw [List.mem_filter]
      constructor
      · unfold firstEncountered
        rw [mem_foldl_addUnique]
        right
        rw [List.mem_map]
        exact ⟨p, List.mem_cons_self _ _, rfl⟩
      · simp [hmem]
    have hstep : mkStep2 (normCategory p) p ∈ specSteps (p :: rest) := by
      unfold specSteps
      apply List.mem_append_right
      rw [List.mem_flatMap]
      refine ⟨normCategory p, hcelem, ?_⟩
      apply List.mem_map_of_mem
      rw [List.mem_filter]
      exact ⟨List.mem_cons_self _ _, by simp⟩
    exact List.ne_nil_of_mem hstep

/-- C1: for every selection, the local routine builder's step sequence is
exactly the spec's: products bucketed by trimmed lower-cased category (an
absent category defaulting to `other`), one step per product in selection
order within each bucket, buckets walked in the fixed priority order
cleanser, exfoliant, toner, essence, serum, eye, moisturizer, oil,
sunscreen, then the categories outside that list in first-encountered
order; the non-empty output is the numbered plain-text lines closed by the
fixed precaution sentence, and the empty selection yields the fixed
nothing-to-build message. -/
theorem c1_local_routine_order (ps : List SelProduct) :
    routineSteps ps = specSteps ps ∧
    (ps = [] → buildLocalRoutine ps = noProductsMsg) ∧
    (ps ≠ [] → buildLocalRoutine ps =
      String.intercalate "\n"
        (["Recommended routine based on selected products:", ""]
          ++ (specSteps ps).enum.map (fun is =>
              toString (is.1 + 1) ++ ". " ++ is.2.name ++ " — " ++ is.2.reason)
          ++ ["", precautionLine])) := by
  refine ⟨routineSteps_eq ps, ?_, ?_⟩
  · rintro rfl
    rfl
  · intro h
    show (let steps := routineSteps ps
      if steps = [] then noProductsMsg
      else
        String.intercalate "\n"
          (["Recommended routine based on selected products:", ""]
            ++ steps.enum.map (fun is =>
                toString (is.1 + 1) ++ ". " ++ is.2.name ++ " — "
                  ++ is.2.reason)
            ++ ["", precautionLine])) = _
    rw [show (let steps := routineSteps ps
      if steps = [] then noProductsMsg
      else
        String.intercalate "\n"
          (["Recommended routine based on selected products:", ""]
            ++ steps.enum.map (fun is =>
                toString (is.1 + 1) ++ ". " ++ is.2.name ++ " — "
                  ++ is.2.reason)
            ++ ["", precautionLine])) =
      if routineSteps ps = [] then noProductsMsg
      else
        String.intercalate "\n"
          (["Recommended routine based on selected products:", ""]
            ++ (routineSteps ps).enum.map (fun is =>
                toString (is.1 + 1) ++ ". " ++ is.2.name ++ " — "
                  ++ is.2.reason)
            ++ ["", precautionLine]) from rfl]
    rw [routineSteps_eq ps, if_neg (specSteps_ne_nil h)]

/-- C1 witness: the products sunscreen, cleanser, unknown selected in that
order; the routine is non-trivial and matches the spec-ordered rendering
(cleanser step first, then sunscreen, then the unknown category). -/
theorem c1_witness :
    exSelection ≠ [] ∧
    buildLocalRoutine exSelection =
      String.intercalate "\n"
        (["Recommended routine based on selected products:", ""]
          ++ (specSteps exSelection).enum.map (fun is =>
              toString (is.1 + 1) ++ ". " ++ is.2.name ++ " — " ++ is.2.reason)
          ++ ["", precautionLine]) :=
  ⟨by decide, (c1_local_routine_order exSelection).2.2 (by decide)⟩

end Script
